import Mathlib

/-!
# Verification of the deepclaude gateway against its specification

Shallow embedding of the repository's request handlers (`src/handlers.rs`),
response model (`src/models/response.rs`) and Gemini client conversion
(`src/clients/gemini.rs`).

Modelling conventions:
* Rust `u32` token counts become `Nat`; where the source performs `u32`
  subtraction, the wrap-around `% 2^32` of release builds is made explicit
  (debug builds would panic instead; either way there is no clamping).
* Rust `f64` dollar amounts become exact rationals `ℚ`.  The claims under
  check are structural (which formula is computed, what is summed before
  rounding), not about binary floating-point rounding error.
* `format!("${:.3}", cost)` is modelled as exact decimal rounding to three
  digits, half-up; the tie-breaking direction never matters for the claims.
* Channels always accept sends in the model (the source ignores send
  failures with `let _ = tx.send(..)`).
-/

/-- Pricing for the DeepSeek provider (`config.pricing.deepseek`); the field
paths follow their uses in `calculate_deepseek_cost` (`config.rs` is not part
of the sources, the shape is fixed by `handlers.rs` and spec section 6). -/
structure DeepSeekPricing where
  input_cache_hit_price : ℚ
  input_cache_miss_price : ℚ
  output_price : ℚ
deriving DecidableEq

/-- Pricing for the Gemini provider (`config.pricing.gemini.gemini_pro`). -/
structure GeminiProPricing where
  input_price : ℚ
  output_price : ℚ
deriving DecidableEq

/-- The Gemini pricing block (`config.pricing.gemini`). -/
structure GeminiPricing where
  gemini_pro : GeminiProPricing
deriving DecidableEq

/-- The pricing table (`config.pricing`). -/
structure Pricing where
  deepseek : DeepSeekPricing
  gemini : GeminiPricing
deriving DecidableEq

/-- The application configuration, restricted to the part the cost
computations read. -/
structure Config where
  pricing : Pricing
deriving DecidableEq

/-- `u32` wrap-around subtraction: the value of Rust `a - b` on `u32` in a
release build (a debug build panics on underflow; no build clamps). -/
def wrapping_sub_u32 (a b : Nat) : Nat :=
  (a + 2 ^ 32 - b % 2 ^ 32) % 2 ^ 32

/-- `calculate_deepseek_cost` from `handlers.rs`: cache-hit, cache-miss and
output cost terms.  The cache-miss term uses the raw `u32` subtraction
`input_tokens - cached_tokens` of the source, which wraps (release) or
panics (debug) when `input_tokens < cached_tokens`; it is not clamped. -/
def calculate_deepseek_cost (input_tokens output_tokens _reasoning_tokens
    cached_tokens : Nat) (config : Config) : ℚ :=
  let cache_hit_cost :=
    (cached_tokens : ℚ) / 1000000 * config.pricing.deepseek.input_cache_hit_price
  let cache_miss_cost :=
    (wrapping_sub_u32 input_tokens cached_tokens : ℚ) / 1000000
      * config.pricing.deepseek.input_cache_miss_price
  let output_cost :=
    (output_tokens : ℚ) / 1000000 * config.pricing.deepseek.output_price
  cache_hit_cost + cache_miss_cost + output_cost

/-- Modelled from the spec: the cost computation as section 4.3 demands it,
with the cache-miss term clamped at zero when `input_tokens < cached_tokens`
(`Nat` subtraction truncates at zero).  Used only to compare the source
behaviour against the spec's words. -/
def calculate_deepseek_cost_spec (input_tokens output_tokens _reasoning_tokens
    cached_tokens : Nat) (config : Config) : ℚ :=
  (cached_tokens : ℚ) / 1000000 * config.pricing.deepseek.input_cache_hit_price
    + ((input_tokens - cached_tokens : Nat) : ℚ) / 1000000
      * config.pricing.deepseek.input_cache_miss_price
    + (output_tokens : ℚ) / 1000000 * config.pricing.deepseek.output_price

/-- `calculate_gemini_cost` from `handlers.rs`. -/
def calculate_gemini_cost (input_tokens output_tokens : Nat)
    (config : Config) : ℚ :=
  let pricing := config.pricing.gemini.gemini_pro
  let input_cost := (input_tokens : ℚ) / 1000000 * pricing.input_price
  let output_cost := (output_tokens : ℚ) / 1000000 * pricing.output_price
  input_cost + output_cost

/-- Round a dollar amount to an integer number of thousandths (half-up). -/
def roundMilli (c : ℚ) : ℤ := ⌊c * 1000 + 1 / 2⌋

/-- Left-pad the fractional part to three digits. -/
def pad3 (n : Nat) : String :=
  if n < 10 then "00" ++ toString n
  else if n < 100 then "0" ++ toString n
  else toString n

/-- `format_cost` from `handlers.rs`: `format!("${:.3}", cost)`, a dollar
sign followed by the amount with exactly three decimal digits. -/
def format_cost (cost : ℚ) : String :=
  let m := roundMilli cost
  if m < 0 then
    "$-" ++ toString ((-m).toNat / 1000) ++ "." ++ pad3 ((-m).toNat % 1000)
  else
    "$" ++ toString (m.toNat / 1000) ++ "." ++ pad3 (m.toNat % 1000)

/-- A fixed configuration with distinct unit prices, used to instantiate
theorems at concrete inputs. -/
def unitConfig : Config :=
  { pricing :=
    { deepseek :=
      { input_cache_hit_price := 1
        input_cache_miss_price := 2
        output_price := 3 }
      gemini := { gemini_pro := { input_price := 5, output_price := 7 } } } }

/-- A canonical content block (`models/response.rs`, `ContentBlock`). -/
structure ContentBlock where
  content_type : String
  text : String
deriving DecidableEq

/-- `ContentBlock::text`: a block with type `"text"`. -/
def ContentBlock.mkText (text : String) : ContentBlock :=
  { content_type := "text", text := text }

/-- A content block of the Gemini client (`crate::clients::gemini::ContentBlock`
as consumed by `ContentBlock::from_gemini`; its two fields are fixed by that
conversion and by the stream-translation arms in `handlers.rs`). -/
structure GeminiContentBlock where
  content_type : String
  text : String
deriving DecidableEq

/-- `ContentBlock::from_gemini` (`models/response.rs`): copies type and text. -/
def ContentBlock.from_gemini (block : GeminiContentBlock) : ContentBlock :=
  { content_type := block.content_type, text := block.text }

/-- `completion_tokens_details` of the DeepSeek usage payload. -/
structure CompletionTokensDetails where
  reasoning_tokens : Nat
deriving DecidableEq

/-- `prompt_tokens_details` of the DeepSeek usage payload. -/
structure PromptTokensDetails where
  cached_tokens : Nat
deriving DecidableEq

/-- The usage payload of the DeepSeek client (the client itself is outside
the given sources; the fields are exactly those `handlers.rs` reads). -/
structure DSUsage where
  prompt_tokens : Nat
  completion_tokens : Nat
  total_tokens : Nat
  completion_tokens_details : CompletionTokensDetails
  prompt_tokens_details : PromptTokensDetails
deriving DecidableEq

/-- A message of a DeepSeek complete-response choice; `handlers.rs` reads
only `reasoning_content`. -/
structure DSMessage where
  reasoning_content : Option String
  content : String
deriving DecidableEq

/-- A choice of a DeepSeek complete-response. -/
structure DSChoice where
  message : DSMessage
deriving DecidableEq

/-- A DeepSeek complete-response (non-streaming path). -/
structure DeepSeekResponse where
  choices : List DSChoice
  usage : DSUsage
deriving DecidableEq

/-- The usage payload of the Gemini client (`clients/gemini.rs`, `Usage`). -/
structure GUsage where
  prompt_tokens : Nat
  completion_tokens : Nat
  total_tokens : Nat
deriving DecidableEq

/-- The Gemini complete-response as the non-streaming handler consumes it:
a list of content blocks plus an optional usage payload (the source is
mid-rename and `handlers.rs` reads `.content` and `.usage`). -/
structure GeminiChatResponse where
  content : List GeminiContentBlock
  usage : Option GUsage
deriving DecidableEq

/-- An assistant message of `clients/gemini.rs`. -/
structure AssistantMessage where
  role : String
  content : String
deriving DecidableEq

/-- A choice of `clients/gemini.rs`, `GeminiResponse`. -/
structure GChoice where
  message : AssistantMessage
  finish_reason : Option String
deriving DecidableEq

/-- `GeminiResponse` of `clients/gemini.rs`. -/
structure GeminiResponse where
  choices : List GChoice
  usage : Option GUsage
deriving DecidableEq

/-- `GeminiClient::convert_response` (`clients/gemini.rs`): wraps the
response text (modelled as the `Option String` that `response.text()`
returns) into a single assistant choice and always sets `usage` to `None`. -/
def convert_response (text : Option String) : GeminiResponse :=
  { choices :=
      [{ message := { role := "assistant", content := text.getD "" }
         finish_reason := some "stop" }]
    usage := none }

/-- The error type of the handlers, restricted to the variants the embedded
paths construct (`error.rs` is outside the given sources; the variant and
its fields are exactly as `handlers.rs` builds them). -/
inductive ApiError where
  | InvalidSystemPrompt : ApiError
  | MissingHeader (header : String) : ApiError
  | BadRequest (message : String) : ApiError
  | DeepSeekError (message type_ : String) (param code : Option String) : ApiError
deriving DecidableEq

/-- Usage report for DeepSeek in the combined response
(`models/response.rs`, `DeepSeekUsage`). -/
structure DeepSeekUsage where
  input_tokens : Nat
  output_tokens : Nat
  reasoning_tokens : Nat
  cached_input_tokens : Nat
  total_tokens : Nat
  total_cost : String
deriving DecidableEq

/-- Usage report for Gemini in the combined response
(`models/response.rs`, `GeminiUsage`). -/
structure GeminiUsage where
  input_tokens : Nat
  output_tokens : Nat
  total_tokens : Nat
  total_cost : String
deriving DecidableEq

/-- `CombinedUsage` of `models/response.rs`. -/
structure CombinedUsage where
  total_cost : String
  deepseek_usage : DeepSeekUsage
  gemini_usage : GeminiUsage
deriving DecidableEq

/-- `ApiResponse` of `models/response.rs`, restricted to the fields the
claims are about (`created` and the verbose raw pass-throughs carry no
checked content). -/
structure ApiResponse where
  content : List ContentBlock
  combined_usage : CombinedUsage
deriving DecidableEq

/-- The non-streaming handler `chat` of `handlers.rs`, starting after
validation and client construction: it is given the DeepSeek
complete-response and the Gemini complete-response the clients would
deliver, and returns the handler result together with the number of times
the Gemini complete operation was invoked.  The source computes the Gemini
cost into a variable the incomplete rename left named `anthropic_cost`;
it is the Gemini cost. -/
def chat (config : Config) (deepseek_response : DeepSeekResponse)
    (gemini_response : GeminiChatResponse) :
    Except ApiError ApiResponse × Nat :=
  match deepseek_response.choices.head?.bind
      (fun c => c.message.reasoning_content) with
  | none =>
    (Except.error
      (ApiError.DeepSeekError "No reasoning content in response"
        "missing_content" none none), 0)
  | some reasoning_content =>
    let thinking_content := "<thinking>\n" ++ reasoning_content ++ "\n</thinking>"
    let deepseek_cost := calculate_deepseek_cost
      deepseek_response.usage.prompt_tokens
      deepseek_response.usage.completion_tokens
      deepseek_response.usage.completion_tokens_details.reasoning_tokens
      deepseek_response.usage.prompt_tokens_details.cached_tokens
      config
    let g_in := (gemini_response.usage.map (fun u => u.prompt_tokens)).getD 0
    let g_out := (gemini_response.usage.map (fun u => u.completion_tokens)).getD 0
    let g_tot := (gemini_response.usage.map (fun u => u.total_tokens)).getD 0
    let gemini_cost := calculate_gemini_cost g_in g_out config
    (Except.ok
      { content :=
          ContentBlock.mkText thinking_content
            :: gemini_response.content.map ContentBlock.from_gemini
        combined_usage :=
          { total_cost := format_cost (deepseek_cost + gemini_cost)
            deepseek_usage :=
              { input_tokens := deepseek_response.usage.prompt_tokens
                output_tokens := deepseek_response.usage.completion_tokens
                reasoning_tokens :=
                  deepseek_response.usage.completion_tokens_details.reasoning_tokens
                cached_input_tokens :=
                  deepseek_response.usage.prompt_tokens_details.cached_tokens
                total_tokens := deepseek_response.usage.total_tokens
                total_cost := format_cost deepseek_cost }
            gemini_usage :=
              { input_tokens := g_in
                output_tokens := g_out
                total_tokens := g_tot
                total_cost := format_cost gemini_cost } } }, 1)

/-- The delta of a DeepSeek stream chunk choice; `chat_stream` reads only
`reasoning_content`. -/
structure DSDelta where
  reasoning_content : Option String
deriving DecidableEq

/-- A choice of a DeepSeek stream chunk. -/
structure DSStreamChoice where
  delta : DSDelta
deriving DecidableEq

/-- A DeepSeek stream chunk as `chat_stream` consumes it: choices plus an
optional usage payload. -/
structure DSChunk where
  choices : List DSStreamChoice
  usage : Option DSUsage
deriving DecidableEq

/-- The Gemini client's native stream events as the `AnswerRelay` match arms
of `chat_stream` consume them (the enum itself is absent from
`clients/gemini.rs`; the variants and their read fields are fixed by the
`handlers.rs` match and spec section 4.2): message start with initial
content, an incremental content delta carrying `delta_type` and `text`,
a message delta optionally carrying usage, and a forward-compatibility
wildcard for every other native event kind. -/
inductive GeminiStreamEvent where
  | messageStart (content : List GeminiContentBlock) : GeminiStreamEvent
  | contentBlockDelta (delta_type text : String) : GeminiStreamEvent
  | messageDelta (usage : Option GUsage) : GeminiStreamEvent
  | other : GeminiStreamEvent
deriving DecidableEq

/-- The canonical outgoing events (`models/response.rs`, `StreamEvent`);
the `created` timestamp of `Start` carries no checked content and is
omitted. -/
inductive StreamEvent where
  | start : StreamEvent
  | content (blocks : List ContentBlock) : StreamEvent
  | usage (usage : CombinedUsage) : StreamEvent
  | done : StreamEvent
  | error (message : String) (code : Nat) : StreamEvent
deriving DecidableEq

/-- The opening thinking tag event sent before the reasoning phase. -/
def thinkOpenEv : StreamEvent :=
  StreamEvent.content [{ content_type := "text", text := "<thinking>\n" }]

/-- The closing thinking tag event sent after the reasoning phase. -/
def thinkCloseEv : StreamEvent :=
  StreamEvent.content [{ content_type := "text", text := "\n</thinking>" }]

/-- `if let Some(usage) = response.usage { deepseek_usage = Some(usage) }`:
a present chunk usage overwrites the recorded one. -/
def updUsage (chunk_usage recorded : Option DSUsage) : Option DSUsage :=
  match chunk_usage with
  | some u => some u
  | none => recorded

/-- The DeepSeek loop of `chat_stream` (spec state `ReasoningRelay`).
Consumes the chunk stream with the recorded usage and the reasoning
accumulator; returns the emitted events and, unless a transport error
ended the whole stream (`none`), the final accumulator and recorded usage.
A chunk whose first choice has no `reasoning_content` breaks out of the
loop before the usage store runs. -/
def reasoningRelay : List (Except String DSChunk) → Option DSUsage → String →
    List StreamEvent × Option (String × Option DSUsage)
  | [], du, acc => ([], some (acc, du))
  | Except.error e :: _, _, _ => ([StreamEvent.error e 500], none)
  | Except.ok chunk :: rest, du, acc =>
    match chunk.choices.head? with
    | some choice =>
      match choice.delta.reasoning_content with
      | none => ([], some (acc, du))
      | some reasoning =>
        let emits := if reasoning = "" then []
          else [StreamEvent.content
            [{ content_type := "text_delta", text := reasoning }]]
        let acc' := if reasoning = "" then acc else acc ++ reasoning
        let step := reasoningRelay rest (updUsage chunk.usage du) acc'
        (emits ++ step.1, step.2)
    | none =>
      reasoningRelay rest (updUsage chunk.usage du) acc

/-- The `CombinedUsage` built inside the `MessageDelta` arm of
`chat_stream` from the recorded DeepSeek usage (if any) and the Gemini
usage payload.  When DeepSeek usage was never recorded the source
hardcodes the two-decimal string `"$0.00"` and the cost `0.0`. -/
def mkCombinedUsage (config : Config) (du : Option DSUsage)
    (gu : GUsage) : CombinedUsage :=
  let gemini_cost := calculate_gemini_cost gu.prompt_tokens gu.completion_tokens config
  let ds : DeepSeekUsage × ℚ :=
    match du with
    | some u =>
      let cost := calculate_deepseek_cost u.prompt_tokens u.completion_tokens
        u.completion_tokens_details.reasoning_tokens
        u.prompt_tokens_details.cached_tokens config
      ({ input_tokens := u.prompt_tokens
         output_tokens := u.completion_tokens
         reasoning_tokens := u.completion_tokens_details.reasoning_tokens
         cached_input_tokens := u.prompt_tokens_details.cached_tokens
         total_tokens := u.total_tokens
         total_cost := format_cost cost }, cost)
    | none =>
      ({ input_tokens := 0
         output_tokens := 0
         reasoning_tokens := 0
         cached_input_tokens := 0
         total_tokens := 0
         total_cost := "$0.00" }, 0)
  { total_cost := format_cost (ds.2 + gemini_cost)
    deepseek_usage := ds.1
    gemini_usage :=
      { input_tokens := gu.prompt_tokens
        output_tokens := gu.completion_tokens
        total_tokens := gu.total_tokens
        total_cost := format_cost gemini_cost } }

/-- The event translation of one `Ok` Gemini stream event in the
`AnswerRelay` match of `chat_stream`: message-start content is forwarded as
one `Content` event unless empty, a content delta becomes a one-block
`Content` event, a message delta carrying usage becomes the `Usage` event,
and every other native event kind is silently ignored. -/
def gemEmits (config : Config) (du : Option DSUsage) :
    GeminiStreamEvent → List StreamEvent
  | GeminiStreamEvent.messageStart content =>
    if content = [] then []
    else [StreamEvent.content (content.map ContentBlock.from_gemini)]
  | GeminiStreamEvent.contentBlockDelta delta_type text =>
    [StreamEvent.content [{ content_type := delta_type, text := text }]]
  | GeminiStreamEvent.messageDelta (some gu) =>
    [StreamEvent.usage (mkCombinedUsage config du gu)]
  | GeminiStreamEvent.messageDelta none => []
  | GeminiStreamEvent.other => []

/-- The Gemini loop of `chat_stream` (spec state `AnswerRelay`).  Returns
the emitted events and whether the upstream stream ended without a
transport error. -/
def answerRelay (config : Config) (du : Option DSUsage) :
    List (Except String GeminiStreamEvent) → List StreamEvent × Bool
  | [] => ([], true)
  | Except.error e :: _ => ([StreamEvent.error e 500], false)
  | Except.ok ev :: rest =>
    let step := answerRelay config du rest
    (gemEmits config du ev ++ step.1, step.2)

/-- The streaming handler `chat_stream` of `handlers.rs` after validation:
given the two upstream streams (as the chunk/event lists the clients would
deliver), the list of canonical events the spawned task sends, in order:
`Start`, the opening thinking tag, the reasoning relay; then, unless a
DeepSeek transport error already terminated the task, the closing thinking
tag, the answer relay and — when Gemini's stream ended without error —
the unconditional `Done`. -/
def chat_stream (config : Config) (dsChunks : List (Except String DSChunk))
    (gemEvents : List (Except String GeminiStreamEvent)) : List StreamEvent :=
  let r := reasoningRelay dsChunks none ""
  StreamEvent.start :: thinkOpenEv :: r.1 ++
    match r.2 with
    | none => []
    | some (_, du) =>
      thinkCloseEv ::
        (let a := answerRelay config du gemEvents
         a.1 ++ if a.2 then [StreamEvent.done] else [])

/-- Tag check: is the event an `Error`? -/
def isError : StreamEvent → Bool
  | StreamEvent.error _ _ => true
  | _ => false

/-- A chunk that breaks the reasoning loop: its first choice exists and has
no reasoning delta. -/
def chunkBreaks (c : DSChunk) : Bool :=
  match c.choices.head? with
  | some choice => choice.delta.reasoning_content.isNone
  | none => false

/-- A DeepSeek stream element the reasoning loop consumes and moves past:
an `Ok` chunk that does not break the loop. -/
def nonBreaking : Except String DSChunk → Bool
  | Except.ok c => !chunkBreaks c
  | Except.error _ => false

/-- Elements of the Gemini stream that are not transport errors. -/
def isOkEv : Except String GeminiStreamEvent → Bool
  | Except.ok _ => true
  | Except.error _ => false

/-- Errors, if any, may appear only as the very last event, with code 500. -/
def okTail : List StreamEvent → Bool
  | [] => true
  | StreamEvent.error _ c :: rest => c == 500 && rest.isEmpty
  | _ :: rest => okTail rest

/-- Does every `Usage` event sit immediately before a `Done` event? -/
def usageImmediatelyBeforeDone : List StreamEvent → Bool
  | [] => true
  | StreamEvent.usage _ :: rest =>
    (match rest with
     | StreamEvent.done :: _ => true
     | _ => false) && usageImmediatelyBeforeDone rest
  | _ :: rest => usageImmediatelyBeforeDone rest

/-- The DeepSeek usage the reasoning phase ends with: `some du` when the
phase completes (by exhaustion or break) with recorded usage `du`, `none`
when a transport error terminated the whole stream. -/
def dsFinalUsage (ds : List (Except String DSChunk)) (du : Option DSUsage) :
    Option (Option DSUsage) :=
  (reasoningRelay ds du "").2.map fun p => p.2

/-- A usage payload used in the concrete streaming instances. -/
def dsU1 : DSUsage := ⟨11, 22, 33, ⟨4⟩, ⟨5⟩⟩

/-- Another usage payload used in the concrete streaming instances. -/
def dsU0 : DSUsage := ⟨1, 2, 3, ⟨0⟩, ⟨0⟩⟩

/-- A chunk that ends the reasoning phase while carrying usage: its first
choice has no reasoning delta, and its usage field is `some dsU1`. -/
def breakChunkWithUsage : DSChunk := { choices := [⟨⟨none⟩⟩], usage := some dsU1 }

/-- Evaluation rule for the rounding step. -/
theorem roundMilli_eq (c : ℚ) (n : ℤ) (h1 : (n : ℚ) ≤ c * 1000 + 1 / 2)
    (h2 : c * 1000 + 1 / 2 < n + 1) : roundMilli c = n := by
  rw [roundMilli]
  exact Int.floor_eq_iff.mpr ⟨h1, h2⟩

/-- A zero cost renders as the three-decimal string. -/
theorem format_cost_zero : format_cost 0 = "$0.000" := by
  have h : roundMilli 0 = 0 := roundMilli_eq 0 0 (by norm_num) (by norm_num)
  rw [format_cost, h]
  decide

example : format_cost (19 / 1000) = "$0.019" := by
  have h : roundMilli (19 / 1000) = 19 :=
    roundMilli_eq (19 / 1000) 19 (by norm_num) (by norm_num)
  rw [format_cost, h]
  decide

/-- On the `u32` domain, when no underflow happens, the wrap-around
subtraction agrees with mathematical subtraction. -/
theorem wrapping_sub_u32_eq_sub (a b : Nat) (hba : b ≤ a) (ha : a < 2 ^ 32) :
    wrapping_sub_u32 a b = a - b := by
  unfold wrapping_sub_u32
  have hb : b % 2 ^ 32 = b := Nat.mod_eq_of_lt (lt_of_le_of_lt hba ha)
  rw [hb]
  have h1 : a + 2 ^ 32 - b = (a - b) + 2 ^ 32 := by omega
  rw [h1, Nat.add_mod_right]
  exact Nat.mod_eq_of_lt (by omega)

/-- C1: the claim says the cache-miss term is clamped at zero when
`input_tokens < cached_tokens`.  The source subtracts `u32` values directly:
at `input_tokens = 0`, `cached_tokens = 1` the cache-miss term is computed
from `2^32 - 1` wrapped tokens (release) rather than from zero, so the cost
disagrees with the clamped computation the spec demands. -/
theorem c1_no_clamp_on_underflow :
    calculate_deepseek_cost 0 0 0 1 unitConfig
        = (1 : ℚ) / 1000000 * 1 + (4294967295 : ℚ) / 1000000 * 2
      ∧ calculate_deepseek_cost_spec 0 0 0 1 unitConfig
        = (1 : ℚ) / 1000000 * 1
      ∧ calculate_deepseek_cost 0 0 0 1 unitConfig
        ≠ calculate_deepseek_cost_spec 0 0 0 1 unitConfig := by
  refine ⟨by norm_num [calculate_deepseek_cost, wrapping_sub_u32, unitConfig],
    by norm_num [calculate_deepseek_cost_spec, unitConfig], ?_⟩
  norm_num [calculate_deepseek_cost, calculate_deepseek_cost_spec,
    wrapping_sub_u32, unitConfig]

/-- C2: with `cached_tokens ≤ input_tokens` (and `input_tokens` in the `u32`
domain) the DeepSeek cost is exactly
`cached/1e6 * hit + (input - cached)/1e6 * miss + output/1e6 * out`, and the
Gemini cost is exactly `input/1e6 * in + output/1e6 * out`. -/
theorem c2_cost_formulas (config : Config)
    (input_tokens output_tokens reasoning_tokens cached_tokens : Nat)
    (hc : cached_tokens ≤ input_tokens) (hi : input_tokens < 2 ^ 32) :
    calculate_deepseek_cost input_tokens output_tokens reasoning_tokens
        cached_tokens config
      = (cached_tokens : ℚ) / 1000000
            * config.pricing.deepseek.input_cache_hit_price
        + ((input_tokens : ℚ) - (cached_tokens : ℚ)) / 1000000
            * config.pricing.deepseek.input_cache_miss_price
        + (output_tokens : ℚ) / 1000000 * config.pricing.deepseek.output_price
    ∧ ∀ g_input g_output : Nat,
        calculate_gemini_cost g_input g_output config
          = (g_input : ℚ) / 1000000
                * config.pricing.gemini.gemini_pro.input_price
            + (g_output : ℚ) / 1000000
                * config.pricing.gemini.gemini_pro.output_price := by
  constructor
  · unfold calculate_deepseek_cost
    rw [wrapping_sub_u32_eq_sub input_tokens cached_tokens hc hi]
    push_cast [hc]
    ring
  · intro g_input g_output
    rfl

/-- Witness for C2 at concrete token counts and the unit configuration. -/
theorem c2_cost_formulas_witness :
    calculate_deepseek_cost 100 50 0 30 unitConfig
      = (30 : ℚ) / 1000000 * 1 + ((100 : ℚ) - 30) / 1000000 * 2
        + (50 : ℚ) / 1000000 * 3 := by
  have h := c2_cost_formulas unitConfig 100 50 0 30 (by decide) (by decide)
  simpa [unitConfig] using h.1

/-- C5: when the first DeepSeek choice carries no reasoning content, the
non-streaming handler fails with the missing-reasoning error (the spec's
`MissingReasoningContent`, built in the source as a `DeepSeekError` with
type `"missing_content"`), and the Gemini complete operation is invoked
zero times, whatever response Gemini would have given. -/
theorem c5_missing_reasoning_stops_pipeline (config : Config)
    (deepseek_response : DeepSeekResponse)
    (gemini_response : GeminiChatResponse)
    (h : deepseek_response.choices.head?.bind
      (fun c => c.message.reasoning_content) = none) :
    chat config deepseek_response gemini_response
      = (Except.error
          (ApiError.DeepSeekError "No reasoning content in response"
            "missing_content" none none), 0) := by
  unfold chat
  rw [h]

/-- Witness for C5: a response whose only choice has no reasoning field. -/
theorem c5_missing_reasoning_stops_pipeline_witness :
    chat unitConfig
        { choices := [{ message := { reasoning_content := none, content := "4" } }]
          usage := ⟨0, 0, 0, ⟨0⟩, ⟨0⟩⟩ }
        { content := [{ content_type := "text", text := "4" }], usage := none }
      = (Except.error
          (ApiError.DeepSeekError "No reasoning content in response"
            "missing_content" none none), 0) :=
  c5_missing_reasoning_stops_pipeline unitConfig _ _ rfl

/-- C6: on every successful non-streaming response the first content block
is the single `"text"` block `"<thinking>\n" ++ reasoning ++ "\n</thinking>"`
and the remaining blocks are exactly Gemini's blocks in order, each
translated with type and text preserved. -/
theorem c6_content_layout (config : Config)
    (deepseek_response : DeepSeekResponse)
    (gemini_response : GeminiChatResponse) (reasoning : String)
    (h : deepseek_response.choices.head?.bind
      (fun c => c.message.reasoning_content) = some reasoning) :
    ∃ resp, chat config deepseek_response gemini_response = (Except.ok resp, 1)
      ∧ resp.content
        = { content_type := "text"
            text := "<thinking>\n" ++ reasoning ++ "\n</thinking>" }
          :: gemini_response.content.map ContentBlock.from_gemini
      ∧ ∀ block : GeminiContentBlock,
          ContentBlock.from_gemini block
            = { content_type := block.content_type, text := block.text } := by
  unfold chat
  rw [h]
  exact ⟨_, rfl, rfl, fun _ => rfl⟩

/-- Witness for C6, the scenario of spec section 8: reasoning
`"2+2 is 4"` and one Gemini text block `"4"`. -/
theorem c6_content_layout_witness :
    ∃ resp,
      chat unitConfig
          { choices :=
              [{ message := { reasoning_content := some "2+2 is 4", content := "" } }]
            usage := ⟨10, 20, 30, ⟨5⟩, ⟨2⟩⟩ }
          { content := [{ content_type := "text", text := "4" }], usage := none }
        = (Except.ok resp, 1)
      ∧ resp.content
        = [{ content_type := "text", text := "<thinking>\n2+2 is 4\n</thinking>" },
           { content_type := "text", text := "4" }] := by
  obtain ⟨resp, h1, h2, _⟩ := c6_content_layout unitConfig
    { choices :=
        [{ message := { reasoning_content := some "2+2 is 4", content := "" } }]
      usage := ⟨10, 20, 30, ⟨5⟩, ⟨2⟩⟩ }
    { content := [{ content_type := "text", text := "4" }], usage := none }
    "2+2 is 4" rfl
  exact ⟨resp, h1, by rw [h2]; rfl⟩

/-- C10: `convert_response` always reports `usage = None`, and whenever the
non-streaming handler consumes a Gemini response without usage, the reported
Gemini usage is all zeros, its rendered cost is `"$0.000"`, the Gemini cost
contribution is zero, and the combined total collapses to the rendered
DeepSeek cost alone. -/
theorem c10_gemini_usage_absent :
    (∀ text : Option String, (convert_response text).usage = none)
    ∧ ∀ (config : Config) (deepseek_response : DeepSeekResponse)
        (gemini_response : GeminiChatResponse) (reasoning : String),
        gemini_response.usage = none →
        deepseek_response.choices.head?.bind
          (fun c => c.message.reasoning_content) = some reasoning →
        ∃ resp, chat config deepseek_response gemini_response
            = (Except.ok resp, 1)
          ∧ resp.combined_usage.gemini_usage.input_tokens = 0
          ∧ resp.combined_usage.gemini_usage.output_tokens = 0
          ∧ resp.combined_usage.gemini_usage.total_tokens = 0
          ∧ resp.combined_usage.gemini_usage.total_cost = "$0.000"
          ∧ calculate_gemini_cost 0 0 config = 0
          ∧ resp.combined_usage.total_cost
            = format_cost (calculate_deepseek_cost
                deepseek_response.usage.prompt_tokens
                deepseek_response.usage.completion_tokens
                deepseek_response.usage.completion_tokens_details.reasoning_tokens
                deepseek_response.usage.prompt_tokens_details.cached_tokens
                config + 0) := by
  have hg : ∀ config : Config, calculate_gemini_cost 0 0 config = 0 := by
    intro config
    simp [calculate_gemini_cost]
  refine ⟨fun _ => rfl, ?_⟩
  intro config deepseek_response gemini_response reasoning hu hr
  unfold chat
  rw [hr, hu]
  refine ⟨_, rfl, rfl, rfl, rfl, ?_, hg config, ?_⟩
  · show format_cost (calculate_gemini_cost 0 0 config) = "$0.000"
    rw [hg config, format_cost_zero]
  · show format_cost (_ + calculate_gemini_cost 0 0 config) = _
    rw [hg config]

/-- Witness for C10 at a concrete usage-free Gemini response. -/
theorem c10_gemini_usage_absent_witness :
    (convert_response (some "4")).usage = none
    ∧ ∃ resp,
        chat unitConfig
            { choices :=
                [{ message := { reasoning_content := some "2+2 is 4", content := "" } }]
              usage := ⟨10, 20, 30, ⟨5⟩, ⟨2⟩⟩ }
            { content := [], usage := none }
          = (Except.ok resp, 1)
        ∧ resp.combined_usage.gemini_usage.total_cost = "$0.000" := by
  refine ⟨c10_gemini_usage_absent.1 (some "4"), ?_⟩
  obtain ⟨resp, h1, _, _, _, h2, _⟩ := c10_gemini_usage_absent.2 unitConfig
    { choices :=
        [{ message := { reasoning_content := some "2+2 is 4", content := "" } }]
      usage := ⟨10, 20, 30, ⟨5⟩, ⟨2⟩⟩ }
    { content := [], usage := none } "2+2 is 4" rfl rfl
  exact ⟨resp, h1, h2⟩

theorem reasoningRelay_nil (du : Option DSUsage) (acc : String) :
    reasoningRelay [] du acc = ([], some (acc, du)) := rfl

theorem reasoningRelay_error (e : String) (rest : List (Except String DSChunk))
    (du : Option DSUsage) (acc : String) :
    reasoningRelay (Except.error e :: rest) du acc
      = ([StreamEvent.error e 500], none) := rfl

theorem reasoningRelay_no_choice (u : Option DSUsage)
    (rest : List (Except String DSChunk)) (du : Option DSUsage) (acc : String) :
    reasoningRelay (Except.ok ⟨[], u⟩ :: rest) du acc
      = reasoningRelay rest (updUsage u du) acc := rfl

theorem reasoningRelay_break (more : List DSStreamChoice) (u : Option DSUsage)
    (rest : List (Except String DSChunk)) (du : Option DSUsage) (acc : String) :
    reasoningRelay (Except.ok ⟨⟨⟨none⟩⟩ :: more, u⟩ :: rest) du acc
      = ([], some (acc, du)) := rfl

theorem reasoningRelay_delta (r : String) (more : List DSStreamChoice)
    (u : Option DSUsage) (rest : List (Except String DSChunk))
    (du : Option DSUsage) (acc : String) :
    reasoningRelay (Except.ok ⟨⟨⟨some r⟩⟩ :: more, u⟩ :: rest) du acc
      = ((if r = "" then []
          else [StreamEvent.content [{ content_type := "text_delta", text := r }]])
            ++ (reasoningRelay rest (updUsage u du)
                (if r = "" then acc else acc ++ r)).1,
         (reasoningRelay rest (updUsage u du)
            (if r = "" then acc else acc ++ r)).2) := rfl

theorem answerRelay_nil (config : Config) (du : Option DSUsage) :
    answerRelay config du [] = ([], true) := rfl

theorem answerRelay_error (config : Config) (du : Option DSUsage) (e : String)
    (rest : List (Except String GeminiStreamEvent)) :
    answerRelay config du (Except.error e :: rest)
      = ([StreamEvent.error e 500], false) := rfl

theorem answerRelay_ok (config : Config) (du : Option DSUsage)
    (ev : GeminiStreamEvent) (rest : List (Except String GeminiStreamEvent)) :
    answerRelay config du (Except.ok ev :: rest)
      = (gemEmits config du ev ++ (answerRelay config du rest).1,
         (answerRelay config du rest).2) := rfl

/-- The reasoning relay emits only `Content` events while it runs; when a
transport error ends it, the error event is last and carries code 500. -/
theorem reasoningRelay_shape (ds : List (Except String DSChunk)) :
    ∀ (du : Option DSUsage) (acc : String),
      ((reasoningRelay ds du acc).2 = none →
        ∃ front m, (reasoningRelay ds du acc).1
            = front ++ [StreamEvent.error m 500]
          ∧ ∀ e ∈ front, isError e = false)
      ∧ (∀ r, (reasoningRelay ds du acc).2 = some r →
          ∀ e ∈ (reasoningRelay ds du acc).1, isError e = false) := by
  induction ds with
  | nil =>
    intro du acc
    rw [reasoningRelay_nil]
    exact ⟨fun h => (by cases h), fun r _ e he => (by cases he)⟩
  | cons hd rest ih =>
    intro du acc
    match hd with
    | Except.error e =>
      rw [reasoningRelay_error]
      exact ⟨fun _ => ⟨[], e, rfl, fun _ h => (by cases h)⟩, fun r h => (by cases h)⟩
    | Except.ok ⟨[], u⟩ =>
      rw [reasoningRelay_no_choice]
      exact ih (updUsage u du) acc
    | Except.ok ⟨⟨⟨none⟩⟩ :: more, u⟩ =>
      rw [reasoningRelay_break]
      exact ⟨fun h => (by cases h), fun r _ e he => (by cases he)⟩
    | Except.ok ⟨⟨⟨some s⟩⟩ :: more, u⟩ =>
      rw [reasoningRelay_delta]
      have ihs := ih (updUsage u du) (if s = "" then acc else acc ++ s)
      constructor
      · intro h
        obtain ⟨front, m, hfm, hfront⟩ := ihs.1 h
        refine ⟨(if s = "" then []
          else [StreamEvent.content [{ content_type := "text_delta", text := s }]])
            ++ front, m, by rw [hfm, List.append_assoc], ?_⟩
        intro e he
        rcases List.mem_append.mp he with h1 | h2
        · split at h1
          · cases h1
          · rcases List.mem_singleton.mp h1 with rfl
            rfl
        · exact hfront e h2
      · intro r h e he
        rcases List.mem_append.mp he with h1 | h2
        · split at h1
          · cases h1
          · rcases List.mem_singleton.mp h1 with rfl
            rfl
        · exact ihs.2 r h e h2

/-- The answer relay emits only `Content` and `Usage` events while it runs;
when a transport error ends it, the error event is last with code 500. -/
theorem answerRelay_shape (config : Config) (du : Option DSUsage)
    (gs : List (Except String GeminiStreamEvent)) :
    ((answerRelay config du gs).2 = false →
      ∃ front m, (answerRelay config du gs).1
          = front ++ [StreamEvent.error m 500]
        ∧ ∀ e ∈ front, isError e = false)
    ∧ ((answerRelay config du gs).2 = true →
        ∀ e ∈ (answerRelay config du gs).1, isError e = false) := by
  induction gs with
  | nil =>
    rw [answerRelay_nil]
    exact ⟨fun h => (by cases h), fun _ e he => (by cases he)⟩
  | cons hd rest ih =>
    match hd with
    | Except.error e =>
      rw [answerRelay_error]
      exact ⟨fun _ => ⟨[], e, rfl, fun _ h => (by cases h)⟩, fun h => (by cases h)⟩
    | Except.ok ev =>
      rw [answerRelay_ok]
      have hemits : ∀ e ∈ gemEmits config du ev, isError e = false := by
        intro e he
        cases ev with
        | messageStart content =>
          by_cases hc : content = []
          · simp [gemEmits, hc] at he
          · simp only [gemEmits, if_neg hc] at he
            rcases List.mem_singleton.mp he with rfl
            rfl
        | contentBlockDelta t s =>
          simp only [gemEmits] at he
          rcases List.mem_singleton.mp he with rfl
          rfl
        | messageDelta ogu =>
          cases ogu with
          | some gu =>
            simp only [gemEmits] at he
            rcases List.mem_singleton.mp he with rfl
            rfl
          | none => simp [gemEmits] at he
        | other => simp [gemEmits] at he
      constructor
      · intro h
        obtain ⟨front, m, hfm, hfront⟩ := ih.1 h
        refine ⟨_ ++ front, m, by rw [hfm, List.append_assoc], ?_⟩
        intro e he
        rcases List.mem_append.mp he with h1 | h2
        · exact hemits e h1
        · exact hfront e h2
      · intro h e he
        rcases List.mem_append.mp he with h1 | h2
        · exact hemits e h1
        · exact ih.2 h e h2

theorem okTail_cons_of_not_error (x : StreamEvent) (l : List StreamEvent)
    (hx : isError x = false) : okTail (x :: l) = okTail l := by
  cases x with
  | start => rfl
  | content _ => rfl
  | usage _ => rfl
  | done => rfl
  | error m c => cases hx

theorem okTail_append_of_not_error (xs ys : List StreamEvent)
    (h : ∀ x ∈ xs, isError x = false) : okTail (xs ++ ys) = okTail ys := by
  induction xs with
  | nil => rfl
  | cons x xs ih =>
    rw [List.cons_append,
      okTail_cons_of_not_error x _ (h x (List.mem_cons_self x xs))]
    exact ih (fun y hy => h y (List.mem_cons_of_mem x hy))

theorem okTail_split (l : List StreamEvent) (hl : okTail l = true) :
    ∀ (front : List StreamEvent) (m : String) (c : Nat)
      (post : List StreamEvent),
      l = front ++ StreamEvent.error m c :: post → c = 500 ∧ post = [] := by
  induction l with
  | nil =>
    intro front m c post h
    cases front <;> cases h
  | cons x rest ih =>
    intro front m c post h
    cases front with
    | nil =>
      simp only [List.nil_append, List.cons.injEq] at h
      obtain ⟨rfl, rfl⟩ := h
      simp only [okTail, Bool.and_eq_true, beq_iff_eq, List.isEmpty_iff] at hl
      exact hl
    | cons y front' =>
      simp only [List.cons_append, List.cons.injEq] at h
      obtain ⟨rfl, h2⟩ := h
      cases x with
      | error m' c' =>
        subst h2
        simp only [okTail, Bool.and_eq_true, beq_iff_eq, List.isEmpty_iff] at hl
        exact absurd hl.2 (by simp)
      | start =>
        rw [okTail_cons_of_not_error StreamEvent.start rest rfl] at hl
        exact ih hl front' m c post h2
      | content b =>
        rw [okTail_cons_of_not_error (StreamEvent.content b) rest rfl] at hl
        exact ih hl front' m c post h2
      | usage u =>
        rw [okTail_cons_of_not_error (StreamEvent.usage u) rest rfl] at hl
        exact ih hl front' m c post h2
      | done =>
        rw [okTail_cons_of_not_error StreamEvent.done rest rfl] at hl
        exact ih hl front' m c post h2

/-- Every event list `chat_stream` can produce keeps errors terminal. -/
theorem okTail_chat_stream (config : Config)
    (ds : List (Except String DSChunk))
    (gs : List (Except String GeminiStreamEvent)) :
    okTail (chat_stream config ds gs) = true := by
  unfold chat_stream
  rcases h2 : (reasoningRelay ds none "").2 with _ | ⟨acc, du⟩
  · obtain ⟨front, m, hfm, hfront⟩ := (reasoningRelay_shape ds none "").1 h2
    simp only [h2, hfm, List.append_nil]
    rw [okTail_cons_of_not_error StreamEvent.start _ rfl,
      okTail_cons_of_not_error thinkOpenEv _ rfl,
      okTail_append_of_not_error front _ hfront]
    rfl
  · have hclean := (reasoningRelay_shape ds none "").2 (acc, du) h2
    simp only [h2]
    have hsoc : ∀ x ∈ StreamEvent.start :: thinkOpenEv
        :: (reasoningRelay ds none "").1, isError x = false := by
      intro x hx
      rcases List.mem_cons.mp hx with rfl | hx
      · rfl
      rcases List.mem_cons.mp hx with rfl | hx
      · rfl
      exact hclean x hx
    rw [okTail_append_of_not_error _ _ hsoc,
      okTail_cons_of_not_error thinkCloseEv _ rfl]
    rcases hb : (answerRelay config du gs).2 with _ | _
    · have hif : (if false = true then [StreamEvent.done] else [])
          = ([] : List StreamEvent) := rfl
      obtain ⟨front, m, hfm, hfront⟩ := (answerRelay_shape config du gs).1 hb
      rw [hif, hfm, List.append_nil, okTail_append_of_not_error front _ hfront]
      rfl
    · have hif : (if true = true then [StreamEvent.done] else [])
          = [StreamEvent.done] := rfl
      have hcl2 := (answerRelay_shape config du gs).2 hb
      rw [hif, okTail_append_of_not_error _ _ hcl2]
      rfl

/-- When the reasoning loop crosses only non-breaking `Ok` chunks, a
transport error in the DeepSeek stream surfaces as the terminal error
event. -/
theorem reasoningRelay_reaches_error (dsFront : List (Except String DSChunk)) :
    ∀ (du : Option DSUsage) (acc : String) (e : String)
      (dsRest : List (Except String DSChunk)),
      (∀ ch ∈ dsFront, nonBreaking ch = true) →
      reasoningRelay (dsFront ++ Except.error e :: dsRest) du acc
        = ((reasoningRelay dsFront du acc).1 ++ [StreamEvent.error e 500],
           none) := by
  induction dsFront with
  | nil =>
    intro du acc e dsRest _
    rw [List.nil_append, reasoningRelay_error, reasoningRelay_nil]
    rfl
  | cons hd rest ih =>
    intro du acc e dsRest h
    have hhd := h hd (List.mem_cons_self hd rest)
    have hrest : ∀ ch ∈ rest, nonBreaking ch = true :=
      fun ch hch => h ch (List.mem_cons_of_mem hd hch)
    match hd, hhd with
    | Except.ok ⟨[], u⟩, _ =>
      rw [List.cons_append, reasoningRelay_no_choice, reasoningRelay_no_choice,
        ih (updUsage u du) acc e dsRest hrest]
    | Except.ok ⟨⟨⟨none⟩⟩ :: more, u⟩, hb =>
      exact absurd hb (by simp [nonBreaking, chunkBreaks])
    | Except.ok ⟨⟨⟨some s⟩⟩ :: more, u⟩, _ =>
      rw [List.cons_append, reasoningRelay_delta, reasoningRelay_delta,
        ih (updUsage u du) (if s = "" then acc else acc ++ s) e dsRest hrest]
      simp [List.append_assoc]

/-- When the answer loop crosses only `Ok` events, a transport error in the
Gemini stream surfaces as the terminal error event. -/
theorem answerRelay_reaches_error (config : Config) (du : Option DSUsage)
    (gemFront : List (Except String GeminiStreamEvent)) :
    ∀ (e : String) (gemRest : List (Except String GeminiStreamEvent)),
      (∀ gv ∈ gemFront, isOkEv gv = true) →
      answerRelay config du (gemFront ++ Except.error e :: gemRest)
        = ((answerRelay config du gemFront).1 ++ [StreamEvent.error e 500],
           false) := by
  induction gemFront with
  | nil =>
    intro e gemRest _
    rw [List.nil_append, answerRelay_error, answerRelay_nil]
    rfl
  | cons hd rest ih =>
    intro e gemRest h
    have hhd := h hd (List.mem_cons_self hd rest)
    have hrest : ∀ gv ∈ rest, isOkEv gv = true :=
      fun gv hgv => h gv (List.mem_cons_of_mem hd hgv)
    match hd, hhd with
    | Except.ok ev, _ =>
      rw [List.cons_append, answerRelay_ok, answerRelay_ok,
        ih e gemRest hrest]
      simp [List.append_assoc]

/-- C8: in every streaming run, error events carry code 500 and are
terminal — nothing, not even `Done` or the closing thinking tag, follows an
`Error`; and a transport error in either upstream stream (reached by the
relay in play) surfaces as exactly one such terminal error event. -/
theorem c8_error_terminal (config : Config)
    (ds : List (Except String DSChunk))
    (gs : List (Except String GeminiStreamEvent)) :
    (∀ (front : List StreamEvent) (m : String) (c : Nat)
        (post : List StreamEvent),
        chat_stream config ds gs = front ++ StreamEvent.error m c :: post →
        c = 500 ∧ post = [])
    ∧ (∀ (dsFront : List (Except String DSChunk)) (e : String)
        (dsRest : List (Except String DSChunk)),
        ds = dsFront ++ Except.error e :: dsRest →
        (∀ ch ∈ dsFront, nonBreaking ch = true) →
        chat_stream config ds gs
          = StreamEvent.start :: thinkOpenEv
              :: (reasoningRelay dsFront none "").1
              ++ [StreamEvent.error e 500])
    ∧ (∀ (acc : String) (du : Option DSUsage)
        (gemFront : List (Except String GeminiStreamEvent)) (e : String)
        (gemRest : List (Except String GeminiStreamEvent)),
        (reasoningRelay ds none "").2 = some (acc, du) →
        gs = gemFront ++ Except.error e :: gemRest →
        (∀ gv ∈ gemFront, isOkEv gv = true) →
        chat_stream config ds gs
          = StreamEvent.start :: thinkOpenEv :: (reasoningRelay ds none "").1
              ++ thinkCloseEv :: (answerRelay config du gemFront).1
              ++ [StreamEvent.error e 500]) := by
  refine ⟨fun front m c post h =>
    okTail_split _ (okTail_chat_stream config ds gs) front m c post h, ?_, ?_⟩
  · intro dsFront e dsRest hds hfront
    subst hds
    unfold chat_stream
    rw [reasoningRelay_reaches_error dsFront none "" e dsRest hfront]
    simp
  · intro acc du gemFront e gemRest h2 hgs hok
    subst hgs
    unfold chat_stream
    simp only [h2]
    rw [answerRelay_reaches_error config du gemFront e gemRest hok]
    simp

/-- Witness for C8: a DeepSeek transport error as the very first chunk
yields `Start`, the opening tag, then the terminal 500 error. -/
theorem c8_error_terminal_witness :
    chat_stream unitConfig [Except.error "boom"] []
      = [StreamEvent.start, thinkOpenEv, StreamEvent.error "boom" 500] := by
  have h := (c8_error_terminal unitConfig [Except.error "boom"] []).2.1
    [] "boom" [] rfl (fun ch hch => absurd hch (by simp))
  simpa [reasoningRelay_nil] using h

/-- All-zero token counts price to a zero DeepSeek cost. -/
theorem calculate_deepseek_cost_zero (config : Config) :
    calculate_deepseek_cost 0 0 0 0 config = 0 := by
  have h : wrapping_sub_u32 0 0 = 0 := by norm_num [wrapping_sub_u32]
  simp [calculate_deepseek_cost, h]

/-- All-zero token counts price to a zero Gemini cost. -/
theorem calculate_gemini_cost_zero (config : Config) :
    calculate_gemini_cost 0 0 config = 0 := by
  simp [calculate_gemini_cost]

/-- The combined usage built by the streaming path renders its total as the
formatted sum of the two costs recomputed from the raw counts it reports. -/
theorem mkCombinedUsage_total (config : Config) (du : Option DSUsage)
    (gu : GUsage) :
    (mkCombinedUsage config du gu).total_cost
      = format_cost (calculate_deepseek_cost
            (mkCombinedUsage config du gu).deepseek_usage.input_tokens
            (mkCombinedUsage config du gu).deepseek_usage.output_tokens
            (mkCombinedUsage config du gu).deepseek_usage.reasoning_tokens
            (mkCombinedUsage config du gu).deepseek_usage.cached_input_tokens
            config
          + calculate_gemini_cost
              (mkCombinedUsage config du gu).gemini_usage.input_tokens
              (mkCombinedUsage config du gu).gemini_usage.output_tokens
              config) := by
  cases du with
  | some u => rfl
  | none =>
    show format_cost (0 + _) = format_cost (calculate_deepseek_cost 0 0 0 0 config + _)
    rw [calculate_deepseek_cost_zero]
    rfl

/-- The reasoning relay never emits a `Usage` event. -/
theorem reasoningRelay_no_usage (ds : List (Except String DSChunk)) :
    ∀ (du : Option DSUsage) (acc : String) (u : CombinedUsage),
      StreamEvent.usage u ∉ (reasoningRelay ds du acc).1 := by
  induction ds with
  | nil => intro du acc u h; cases h
  | cons hd rest ih =>
    intro du acc u h
    match hd with
    | Except.error e =>
      rw [reasoningRelay_error] at h
      rcases List.mem_singleton.mp h with h'
      cases h'
    | Except.ok ⟨[], uu⟩ =>
      rw [reasoningRelay_no_choice] at h
      exact ih (updUsage uu du) acc u h
    | Except.ok ⟨⟨⟨none⟩⟩ :: more, uu⟩ =>
      rw [reasoningRelay_break] at h
      cases h
    | Except.ok ⟨⟨⟨some s⟩⟩ :: more, uu⟩ =>
      rw [reasoningRelay_delta] at h
      rcases List.mem_append.mp h with h1 | h2
      · split at h1
        · cases h1
        · rcases List.mem_singleton.mp h1 with h'
          cases h'
      · exact ih (updUsage uu du) (if s = "" then acc else acc ++ s) u h2

/-- Every `Usage` event the answer relay emits is a `mkCombinedUsage`. -/
theorem answerRelay_usage_mem (config : Config) (du : Option DSUsage)
    (gs : List (Except String GeminiStreamEvent)) :
    ∀ u : CombinedUsage, StreamEvent.usage u ∈ (answerRelay config du gs).1 →
      ∃ gu, u = mkCombinedUsage config du gu := by
  induction gs with
  | nil => intro u h; cases h
  | cons hd rest ih =>
    intro u h
    match hd with
    | Except.error e =>
      rw [answerRelay_error] at h
      rcases List.mem_singleton.mp h with h'
      cases h'
    | Except.ok ev =>
      rw [answerRelay_ok] at h
      rcases List.mem_append.mp h with h1 | h2
      · cases ev with
        | messageStart content =>
          by_cases hc : content = []
          · simp [gemEmits, hc] at h1
          · simp only [gemEmits, if_neg hc] at h1
            rcases List.mem_singleton.mp h1 with h'
            cases h'
        | contentBlockDelta t s =>
          simp only [gemEmits] at h1
          rcases List.mem_singleton.mp h1 with h'
          cases h'
        | messageDelta ogu =>
          cases ogu with
          | some gu =>
            simp only [gemEmits] at h1
            rcases List.mem_singleton.mp h1 with h'
            exact ⟨gu, by injection h'⟩
          | none => simp [gemEmits] at h1
        | other => simp [gemEmits] at h1
      · exact ih u h2

/-- C3: every `CombinedUsage` the system produces — the non-streaming
response and every streaming `Usage` event alike — renders `total_cost` as
the 3-decimal formatting of the exact rational sum of the DeepSeek and
Gemini costs recomputed from the very raw counts reported in its
per-provider usage fields (never as a sum of two rounded strings). -/
theorem c3_total_cost_is_formatted_sum (config : Config) :
    (∀ (deepseek_response : DeepSeekResponse)
        (gemini_response : GeminiChatResponse) (reasoning : String),
        deepseek_response.choices.head?.bind
          (fun c => c.message.reasoning_content) = some reasoning →
        ∃ resp, chat config deepseek_response gemini_response
            = (Except.ok resp, 1)
          ∧ resp.combined_usage.total_cost
            = format_cost (calculate_deepseek_cost
                  resp.combined_usage.deepseek_usage.input_tokens
                  resp.combined_usage.deepseek_usage.output_tokens
                  resp.combined_usage.deepseek_usage.reasoning_tokens
                  resp.combined_usage.deepseek_usage.cached_input_tokens
                  config
                + calculate_gemini_cost
                    resp.combined_usage.gemini_usage.input_tokens
                    resp.combined_usage.gemini_usage.output_tokens
                    config))
    ∧ ∀ (ds : List (Except String DSChunk))
        (gs : List (Except String GeminiStreamEvent)) (u : CombinedUsage),
        StreamEvent.usage u ∈ chat_stream config ds gs →
        u.total_cost
          = format_cost (calculate_deepseek_cost
                u.deepseek_usage.input_tokens u.deepseek_usage.output_tokens
                u.deepseek_usage.reasoning_tokens
                u.deepseek_usage.cached_input_tokens config
              + calculate_gemini_cost u.gemini_usage.input_tokens
                  u.gemini_usage.output_tokens config) := by
  constructor
  · intro deepseek_response gemini_response reasoning hr
    unfold chat
    rw [hr]
    exact ⟨_, rfl, rfl⟩
  · intro ds gs u hmem
    unfold chat_stream at hmem
    rcases h2 : (reasoningRelay ds none "").2 with _ | ⟨acc, du⟩ <;>
      simp only [h2] at hmem
    · rcases List.mem_append.mp hmem with h1 | h1
      · rcases List.mem_cons.mp h1 with h' | h1
        · cases h'
        rcases List.mem_cons.mp h1 with h' | h1
        · cases h'
        exact absurd h1 (reasoningRelay_no_usage ds none "" u)
      · cases h1
    · rcases List.mem_append.mp hmem with h1 | h1
      · rcases List.mem_cons.mp h1 with h' | h1
        · cases h'
        rcases List.mem_cons.mp h1 with h' | h1
        · cases h'
        exact absurd h1 (reasoningRelay_no_usage ds none "" u)
      · rcases List.mem_cons.mp h1 with h' | h1
        · cases h'
        rcases List.mem_append.mp h1 with h3 | h3
        · obtain ⟨gu, rfl⟩ := answerRelay_usage_mem config du gs u h3
          exact mkCombinedUsage_total config du gu
        · split at h3
          · rcases List.mem_singleton.mp h3 with h'
            cases h'
          · cases h3

/-- Witness for C3 at a concrete non-streaming request. -/
theorem c3_total_cost_is_formatted_sum_witness :
    ∃ resp,
      chat unitConfig
          { choices :=
              [{ message := { reasoning_content := some "2+2 is 4", content := "" } }]
            usage := ⟨10, 20, 30, ⟨5⟩, ⟨2⟩⟩ }
          { content := [{ content_type := "text", text := "4" }],
            usage := some ⟨100, 200, 300⟩ }
        = (Except.ok resp, 1)
      ∧ resp.combined_usage.total_cost
        = format_cost (calculate_deepseek_cost
              resp.combined_usage.deepseek_usage.input_tokens
              resp.combined_usage.deepseek_usage.output_tokens
              resp.combined_usage.deepseek_usage.reasoning_tokens
              resp.combined_usage.deepseek_usage.cached_input_tokens
              unitConfig
            + calculate_gemini_cost
                resp.combined_usage.gemini_usage.input_tokens
                resp.combined_usage.gemini_usage.output_tokens
                unitConfig) :=
  (c3_total_cost_is_formatted_sum unitConfig).1
    { choices :=
        [{ message := { reasoning_content := some "2+2 is 4", content := "" } }]
      usage := ⟨10, 20, 30, ⟨5⟩, ⟨2⟩⟩ }
    { content := [{ content_type := "text", text := "4" }],
      usage := some ⟨100, 200, 300⟩ }
    "2+2 is 4" rfl

/-- C4: evaluation at the failing streaming input.  A zero cost formatted by
`format_cost` renders as `"$0.000"`, but in the streaming path, when
DeepSeek usage was never recorded, the emitted `Usage` event carries the
hardcoded two-decimal string `"$0.00"` as the DeepSeek cost — not the
three-decimal rendering the claim states. -/
theorem c4_zero_cost_rendering :
    format_cost 0 = "$0.000"
    ∧ (mkCombinedUsage unitConfig none ⟨1000, 2000, 3000⟩).deepseek_usage
      = { input_tokens := 0, output_tokens := 0, reasoning_tokens := 0,
          cached_input_tokens := 0, total_tokens := 0, total_cost := "$0.00" }
    ∧ "$0.00" ≠ "$0.000"
    ∧ chat_stream unitConfig []
        [Except.ok (GeminiStreamEvent.messageDelta (some ⟨1000, 2000, 3000⟩))]
      = [StreamEvent.start, thinkOpenEv, thinkCloseEv,
         StreamEvent.usage (mkCombinedUsage unitConfig none ⟨1000, 2000, 3000⟩),
         StreamEvent.done] :=
  ⟨format_cost_zero, rfl, by decide, rfl⟩

/-- C7 counterexample: both upstream streams end without error, yet when the
usage-bearing message delta arrives before a later content delta, the
emitted sequence places the `Usage` event before further Provider B
content, hence not immediately before `Done`. -/
theorem c7_counterexample :
    chat_stream unitConfig []
        [Except.ok (GeminiStreamEvent.messageDelta (some ⟨1, 1, 2⟩)),
         Except.ok (GeminiStreamEvent.contentBlockDelta "text_delta" "hi")]
      = [StreamEvent.start, thinkOpenEv, thinkCloseEv,
         StreamEvent.usage (mkCombinedUsage unitConfig none ⟨1, 1, 2⟩),
         StreamEvent.content [{ content_type := "text_delta", text := "hi" }],
         StreamEvent.done]
    ∧ usageImmediatelyBeforeDone (chat_stream unitConfig []
        [Except.ok (GeminiStreamEvent.messageDelta (some ⟨1, 1, 2⟩)),
         Except.ok (GeminiStreamEvent.contentBlockDelta "text_delta" "hi")])
      = false :=
  ⟨rfl, rfl⟩

theorem updUsage_none (du : Option DSUsage) : updUsage none du = du := rfl

theorem updUsage_some (u : DSUsage) (du : Option DSUsage) :
    updUsage (some u) du = some u := rfl

/-- A reasoning stream made only of single-delta chunks is relayed as the
non-empty deltas, in order, with the accumulator threaded and the recorded
usage untouched. -/
theorem reasoningRelay_happy (rs : List String) :
    ∀ (du : Option DSUsage) (acc : String),
      (reasoningRelay (rs.map fun r =>
          Except.ok { choices := [⟨⟨some r⟩⟩], usage := none }) du acc).1
        = (rs.filter fun r => !(r == "")).map (fun r =>
            StreamEvent.content [{ content_type := "text_delta", text := r }])
      ∧ ∃ acc', (reasoningRelay (rs.map fun r =>
          Except.ok { choices := [⟨⟨some r⟩⟩], usage := none }) du acc).2
        = some (acc', du) := by
  induction rs with
  | nil =>
    intro du acc
    rw [List.map_nil, reasoningRelay_nil]
    exact ⟨rfl, acc, rfl⟩
  | cons r rest ih =>
    intro du acc
    simp only [List.map_cons, reasoningRelay_delta, updUsage_none]
    obtain ⟨ih1, acc', ih2⟩ := ih du (if r = "" then acc else acc ++ r)
    by_cases hr : r = ""
    · constructor
      · rw [if_pos hr, List.nil_append, ih1]
        simp [List.filter_cons, hr]
      · exact ⟨acc', ih2⟩
    · constructor
      · rw [if_neg hr, ih1]
        simp [List.filter_cons, hr]
      · exact ⟨acc', ih2⟩

/-- The answer relay dispatches a run of `Ok` content deltas as one
`Content` event each, then continues with the remaining stream. -/
theorem answerRelay_content_run (config : Config) (du : Option DSUsage)
    (gcs : List (String × String)) :
    ∀ tail : List (Except String GeminiStreamEvent),
      answerRelay config du ((gcs.map fun p =>
          Except.ok (GeminiStreamEvent.contentBlockDelta p.1 p.2)) ++ tail)
        = ((gcs.map fun p =>
            StreamEvent.content [{ content_type := p.1, text := p.2 }])
              ++ (answerRelay config du tail).1,
           (answerRelay config du tail).2) := by
  induction gcs with
  | nil => intro tail; rfl
  | cons p rest ih =>
    intro tail
    rw [List.map_cons, List.cons_append, answerRelay_ok, ih tail]
    simp [gemEmits]

/-- C7 amended: when Provider B's stream is a run of content deltas with the
usage-bearing message delta as its final event (the happy-path shape), the
emitted sequence is exactly `Start`, the opening tag, the non-empty
reasoning deltas in order, the closing tag, Provider B's content in order,
then `Usage` immediately before `Done`; and with no usage-bearing event at
all, `Done` is still emitted unconditionally, with no `Usage` event. -/
theorem c7_amended_happy_path (config : Config) (rs : List String)
    (gcs : List (String × String)) (gu : GUsage) :
    chat_stream config
        (rs.map fun r => Except.ok { choices := [⟨⟨some r⟩⟩], usage := none })
        ((gcs.map fun p =>
            Except.ok (GeminiStreamEvent.contentBlockDelta p.1 p.2))
          ++ [Except.ok (GeminiStreamEvent.messageDelta (some gu))])
      = StreamEvent.start :: thinkOpenEv
          :: (((rs.filter fun r => !(r == "")).map fun r =>
                StreamEvent.content [{ content_type := "text_delta", text := r }])
            ++ thinkCloseEv
              :: ((gcs.map fun p =>
                  StreamEvent.content [{ content_type := p.1, text := p.2 }])
                ++ [StreamEvent.usage (mkCombinedUsage config none gu),
                    StreamEvent.done]))
    ∧ chat_stream config
        (rs.map fun r => Except.ok { choices := [⟨⟨some r⟩⟩], usage := none })
        (gcs.map fun p => Except.ok (GeminiStreamEvent.contentBlockDelta p.1 p.2))
      = StreamEvent.start :: thinkOpenEv
          :: (((rs.filter fun r => !(r == "")).map fun r =>
                StreamEvent.content [{ content_type := "text_delta", text := r }])
            ++ thinkCloseEv
              :: ((gcs.map fun p =>
                  StreamEvent.content [{ content_type := p.1, text := p.2 }])
                ++ [StreamEvent.done])) := by
  obtain ⟨h1, acc', h2⟩ := reasoningRelay_happy rs none ""
  have htail : answerRelay config none
      [Except.ok (GeminiStreamEvent.messageDelta (some gu))]
      = ([StreamEvent.usage (mkCombinedUsage config none gu)], true) := rfl
  constructor
  · unfold chat_stream
    simp only [h2, h1,
      answerRelay_content_run config none gcs
        [Except.ok (GeminiStreamEvent.messageDelta (some gu))],
      htail]
    simp [List.append_assoc]
  · unfold chat_stream
    have hnil := answerRelay_content_run config none gcs []
    rw [List.append_nil] at hnil
    simp only [h2, h1, hnil, answerRelay_nil]
    simp [List.append_assoc]

/-- The recorded usage of the reasoning relay does not depend on the
accumulator it starts from. -/
theorem reasoningRelay_usage_acc_irrel (ds : List (Except String DSChunk)) :
    ∀ (du : Option DSUsage) (acc1 acc2 : String),
      ((reasoningRelay ds du acc1).2).map (fun p => p.2)
        = ((reasoningRelay ds du acc2).2).map (fun p => p.2) := by
  induction ds with
  | nil => intro du acc1 acc2; rfl
  | cons hd rest ih =>
    intro du acc1 acc2
    match hd with
    | Except.error e => rfl
    | Except.ok ⟨[], u⟩ =>
      rw [reasoningRelay_no_choice, reasoningRelay_no_choice]
      exact ih (updUsage u du) acc1 acc2
    | Except.ok ⟨⟨⟨none⟩⟩ :: more, u⟩ => rfl
    | Except.ok ⟨⟨⟨some s⟩⟩ :: more, u⟩ =>
      rw [reasoningRelay_delta, reasoningRelay_delta]
      exact ih (updUsage u du)
        (if s = "" then acc1 else acc1 ++ s)
        (if s = "" then acc2 else acc2 ++ s)

/-- C9 counterexample: a chunk whose first choice has no reasoning delta but
which carries usage ends the phase with the usage it carried discarded —
the recorded usage stays `none` instead of becoming that chunk's usage. -/
theorem c9_counterexample :
    breakChunkWithUsage.usage = some dsU1
    ∧ dsFinalUsage [Except.ok breakChunkWithUsage] none = some none
    ∧ (some (none : Option DSUsage)) ≠ some (some dsU1) :=
  ⟨rfl, rfl, by decide⟩

/-- C9 amended: a chunk the phase moves past (no first choice, or a present
reasoning delta) records its usage with last-value-wins overwriting; but a
chunk that ends the phase (first choice present, reasoning delta absent)
has its usage discarded — the phase finishes with the previously recorded
value.  Over a run of usage-only chunks the final record is the last usage
carried, confirming last-wins for processed chunks. -/
theorem c9_amended_usage_recording (chunk : DSChunk)
    (rest : List (Except String DSChunk)) (du : Option DSUsage) :
    (chunkBreaks chunk = false →
      dsFinalUsage (Except.ok chunk :: rest) du
        = dsFinalUsage rest (updUsage chunk.usage du))
    ∧ (chunkBreaks chunk = true →
      dsFinalUsage (Except.ok chunk :: rest) du = some du)
    ∧ ∀ us : List DSUsage,
        dsFinalUsage (us.map fun u =>
          Except.ok { choices := [], usage := some u }) du
        = some (updUsage us.getLast? du) := by
  refine ⟨?_, ?_, ?_⟩
  · intro hnb
    match chunk, hnb with
    | ⟨[], cu⟩, _ =>
      show ((reasoningRelay (Except.ok ⟨[], cu⟩ :: rest) du "").2).map _ = _
      rw [reasoningRelay_no_choice]
      rfl
    | ⟨⟨⟨none⟩⟩ :: more, cu⟩, hnb =>
      exact absurd hnb (by simp [chunkBreaks])
    | ⟨⟨⟨some s⟩⟩ :: more, cu⟩, _ =>
      show ((reasoningRelay (Except.ok ⟨⟨⟨some s⟩⟩ :: more, cu⟩ :: rest) du "").2).map _ = _
      rw [reasoningRelay_delta]
      exact reasoningRelay_usage_acc_irrel rest (updUsage cu du)
        (if s = "" then "" else "" ++ s) ""
  · intro hb
    match chunk, hb with
    | ⟨[], cu⟩, hb => exact absurd hb (by simp [chunkBreaks])
    | ⟨⟨⟨none⟩⟩ :: more, cu⟩, _ => rfl
    | ⟨⟨⟨some s⟩⟩ :: more, cu⟩, hb =>
      exact absurd hb (by simp [chunkBreaks])
  · intro us
    induction us generalizing du with
    | nil => rfl
    | cons u us' ih =>
      have hstep : dsFinalUsage ((u :: us').map fun v =>
          Except.ok { choices := [], usage := some v }) du
          = dsFinalUsage (us'.map fun v =>
            Except.ok { choices := [], usage := some v }) (some u) := by
        show ((reasoningRelay (Except.ok ⟨[], some u⟩ :: _) du "").2).map _ = _
        rw [reasoningRelay_no_choice, updUsage_some]
        rfl
      rw [hstep, ih (some u)]
      cases us' with
      | nil => rfl
      | cons v vs =>
        rw [List.getLast?_cons_cons]
        obtain ⟨x, hx⟩ := Option.isSome_iff_exists.mp
          (List.getLast?_isSome.mpr (by simp) :
            ((v :: vs).getLast?).isSome)
        rw [hx]
        rfl

/-- Witness for C9 amended: a breaking chunk carrying usage leaves the
previously recorded usage in place. -/
theorem c9_amended_usage_recording_witness :
    dsFinalUsage [Except.ok breakChunkWithUsage] (some dsU0)
      = some (some dsU0) :=
  (c9_amended_usage_recording breakChunkWithUsage [] (some dsU0)).2.1 rfl
